import Mathlib

/-!
Shallow embedding of the real-time delivery core of the ChatKet chat server:
the dedup/delivery ledger (`ChatService.sendMessage`, `getMessage`,
`getMessagesSince`), the sliding-window rate limiter
(`RateLimitService.checkAndRecord`), the presence tracker
(`PresenceService`), and the gateway handlers (`handleMessageSend`,
`handleRoomsSync`).  Timestamps are embedded as `Int` (JS millisecond
epoch numbers, where subtraction may go negative), database ids as the
decimal string of a store counter, and the Prisma store as explicit
lists of rows.  External collaborators (membership store, socket
transport) appear as oracle parameters and emitted-event traces.
-/

namespace ChatKet

/-- A stored chat message row (Prisma `Message`): id, room, sender,
text, creation time, optional reply target. -/
structure Message where
  id : Nat
  roomId : String
  userId : String
  text : String
  createdAt : Int
  replyToId : Option Nat
deriving DecidableEq

/-- A dedupe row (Prisma `MessageDedupe`), unique on
`(roomId, userId, clientMsgId)`, mapping to the assigned message id. -/
structure DedupeRecord where
  roomId : String
  userId : String
  clientMsgId : String
  messageId : Nat
deriving DecidableEq

/-- The durable message store: message rows, dedupe rows, and the id
counter used to mint fresh message ids. -/
structure Store where
  messages : List Message
  dedupes : List DedupeRecord
  nextId : Nat
deriving DecidableEq

/-- The empty store. -/
def Store.empty : Store := ⟨[], [], 0⟩

/-- Payload of a send (`MessageDto` in `chat.service.ts`). -/
structure MessageDto where
  roomId : String
  text : String
  clientMsgId : String
  replyToId : Option Nat
deriving DecidableEq

/-- Result of `ChatService.sendMessage` (`MessageResult` in
`chat.service.ts`); optional fields are `Option`. -/
structure MessageResult where
  success : Bool
  messageId : Option Nat
  error : Option String
  isDuplicate : Option Bool
deriving DecidableEq

/-- A database error thrown by the store; the only one relevant to the
core is the uniqueness violation on the dedupe key. -/
inductive DbError
  | uniqueViolation
deriving DecidableEq

/-- Trace of store operations performed by `sendMessage`, used to state
that validation failures touch no storage. -/
inductive StoreOp
  | dedupeLookup
  | insertTx
deriving DecidableEq

/-- `prisma.messageDedupe.findUnique` on the compound key
`(roomId, userId, clientMsgId)`. -/
def findDedupe (s : Store) (roomId userId clientMsgId : String) : Option DedupeRecord :=
  s.dedupes.find? fun d =>
    decide (d.roomId = roomId ∧ d.userId = userId ∧ d.clientMsgId = clientMsgId)

/-- Whitespace characters stripped by `String.prototype.trim`, on the
character set the embedding cares about. -/
def jsWhitespace (c : Char) : Bool := c.isWhitespace

/-- `text.trim` of JS: strip whitespace from both ends. -/
def jsTrim (s : String) : String :=
  ⟨(((s.data.dropWhile jsWhitespace).reverse).dropWhile jsWhitespace).reverse⟩

/-- The `$transaction` body of `sendMessage`: create the `Message` row
and its `DedupeRecord` in one atomic unit.  The dedupe uniqueness
constraint makes the whole transaction fail (store unchanged) when a
record with the same key already exists. -/
def insertMessageWithDedupe (now : Int) (userId roomId text clientMsgId : String)
    (replyToId : Option Nat) (s : Store) : Except DbError (Message × Store) :=
  let m : Message := ⟨s.nextId, roomId, userId, text, now, replyToId⟩
  match findDedupe s roomId userId clientMsgId with
  | some _ => .error .uniqueViolation
  | none =>
    .ok (m, ⟨s.messages ++ [m], s.dedupes ++ [⟨roomId, userId, clientMsgId, m.id⟩], s.nextId + 1⟩)

/-- `ChatService.sendMessage`.  The two store arguments are the store
snapshot seen by the dedupe lookup and the one seen by the transactional
insert; they differ only when a concurrent send commits between the two
steps (sequential execution is `sendMessageSeq`, where they coincide).
Validation trims the text and rejects empty or over-length input before
any store access; an existing dedupe record yields the idempotent-replay
result; otherwise the atomic insert runs, and any store error propagates
(the source has no handler around the transaction). -/
def sendMessage (now : Int) (userId : String) (dto : MessageDto)
    (sLookup sInsert : Store) : Except DbError (MessageResult × Store × List StoreOp) :=
  let trimmedText := jsTrim dto.text
  if trimmedText.length = 0 then
    .ok (⟨false, none, some "Message cannot be empty", none⟩, sInsert, [])
  else if 500 < trimmedText.length then
    .ok (⟨false, none, some "Message too long (max 500 characters)", none⟩, sInsert, [])
  else
    match findDedupe sLookup dto.roomId userId dto.clientMsgId with
    | some d => .ok (⟨true, some d.messageId, none, some true⟩, sInsert, [.dedupeLookup])
    | none =>
      match insertMessageWithDedupe now userId dto.roomId trimmedText dto.clientMsgId
          dto.replyToId sInsert with
      | .error e => .error e
      | .ok (m, s1) => .ok (⟨true, some m.id, none, none⟩, s1, [.dedupeLookup, .insertTx])

/-- `sendMessage` as executed without concurrent interference: the
lookup and the insert see the same store. -/
def sendMessageSeq (now : Int) (userId : String) (dto : MessageDto) (s : Store) :
    Except DbError (MessageResult × Store × List StoreOp) :=
  sendMessage now userId dto s s

/-- `ChatService.getMessage`: fetch a message row by id. -/
def getMessage (s : Store) (messageId : Nat) : Option Message :=
  s.messages.find? fun m => decide (m.id = messageId)

/-- Ordering of messages by creation time, the `orderBy createdAt asc`
of the store. -/
def msgLE (a b : Message) : Prop := a.createdAt ≤ b.createdAt

instance : DecidableRel msgLE := fun a b => inferInstanceAs (Decidable (a.createdAt ≤ b.createdAt))

instance : IsTotal Message msgLE := ⟨fun a b => Int.le_total a.createdAt b.createdAt⟩

instance : IsTrans Message msgLE := ⟨fun _ _ _ hab hbc => le_trans hab hbc⟩

/-- `ChatService.getMessagesSince`: messages of the room with creation
time strictly greater than `since`, ordered ascending by creation time,
capped at `min limit 100` (the service signature defaults `limit` to
100, which is how the gateway calls it). -/
def getMessagesSince (roomId : String) (since : Int) (limit : Nat) (s : Store) : List Message :=
  (((s.messages.filter fun m => decide (m.roomId = roomId ∧ since < m.createdAt)).insertionSort
    msgLE).take (min limit 100))

/-- `windowMs` of `RateLimitService`: 10 seconds. -/
def windowMs : Int := 10 * 1000

/-- `maxMessages` of `RateLimitService`: 5 messages per window. -/
def maxMessages : Nat := 5

/-- `muteDurationMs` of `RateLimitService`: 30 seconds. -/
def muteDurationMs : Int := 30 * 1000

/-- One value of the in-memory rate-limit map (`RateLimitEntry`). -/
structure RateLimitEntry where
  timestamps : List Int
  mutedUntil : Option Int
deriving DecidableEq

/-- Result of `RateLimitService.checkAndRecord` (`RateLimitResult`). -/
structure RateLimitResult where
  allowed : Bool
  mutedUntil : Option Int
  remainingMessages : Option Nat
  error : Option String
deriving DecidableEq

/-- The in-memory `Map<userId:roomId, RateLimitEntry>`. -/
abbrev RLMap := String → Option RateLimitEntry

/-- The map key used by the rate limiter. -/
def rlKey (userId roomId : String) : String := userId ++ ":" ++ roomId

/-- The empty rate-limit map. -/
def RLMap.empty : RLMap := fun _ => none

/-- Point update of the rate-limit map. -/
def RLMap.set (m : RLMap) (k : String) (e : RateLimitEntry) : RLMap :=
  fun k2 => if k2 = k then some e else m k2

/-- Tail of `checkAndRecord` after the mute checks: filter the recorded
timestamps to the trailing window, reject (and set the mute) when the
limit is reached, otherwise append `now`. -/
def recordInWindow (key : String) (now : Int) (e : RateLimitEntry) (m : RLMap) :
    RateLimitResult × RLMap :=
  let ts := e.timestamps.filter fun t => decide (now - windowMs < t)
  if maxMessages ≤ ts.length then
    (⟨false, some (now + muteDurationMs), none,
        some "Rate limit exceeded. You are muted for 30 seconds."⟩,
      m.set key ⟨ts, some (now + muteDurationMs)⟩)
  else
    (⟨true, none, some (maxMessages - (ts.length + 1)), none⟩,
      m.set key ⟨ts ++ [now], none⟩)

/-- `RateLimitService.checkAndRecord` with the `Date.now()` reading as
an explicit `now` argument: an active mute rejects without change, an
expired mute resets both the mute and the timestamp history, then the
sliding-window check runs. -/
def checkAndRecord (userId roomId : String) (now : Int) (m : RLMap) :
    RateLimitResult × RLMap :=
  let key := rlKey userId roomId
  let e0 := (m key).getD ⟨[], none⟩
  match e0.mutedUntil with
  | some mu =>
    if now < mu then
      (⟨false, some mu, none, some "You are muted due to rate limit violation"⟩, m.set key e0)
    else
      recordInWindow key now ⟨[], none⟩ m
  | none => recordInWindow key now e0 m

/-- One per-user presence value (`PresenceEntry` in
`presence.service.ts`). -/
structure PresenceEntry where
  lastPing : Int
  socketId : String
  roomIds : List String
deriving DecidableEq

/-- `PresenceStatus` of `presence.service.ts`. -/
inductive PresenceStatus
  | online
  | away
  | offline
deriving DecidableEq

/-- The three in-memory maps of `PresenceService`: user presence, the
socket-to-user reverse index, and the per-room roster (`roomUsers`
deletes a room key once its set empties, hence the `Option`). -/
structure PState where
  presenceMap : String → Option PresenceEntry
  socketToUser : String → Option String
  roomUsers : String → Option (List String)

/-- `onlineTimeoutMs` of `PresenceService`: 30 seconds to offline. -/
def onlineTimeoutMs : Int := 30 * 1000

/-- The empty presence state. -/
def PState.empty : PState := ⟨fun _ => none, fun _ => none, fun _ => none⟩

/-- JS `Set.add` on an insertion-ordered, duplicate-free list. -/
def setAdd (l : List String) (x : String) : List String :=
  if x ∈ l then l else l ++ [x]

/-- JS `Set.delete` on an insertion-ordered, duplicate-free list. -/
def setDelete (l : List String) (x : String) : List String :=
  l.filter fun y => decide (y ≠ x)

/-- `PresenceService.connect`: drop the reverse mapping of a superseded
socket, then rebind the user to the new socket, keeping any previously
joined rooms. -/
def PresenceService.connect (now : Int) (userId socketId : String) (st : PState) : PState :=
  let existing := st.presenceMap userId
  let s2u : String → Option String :=
    match existing with
    | some e =>
      if e.socketId ≠ socketId then
        fun k => if k = e.socketId then none else st.socketToUser k
      else st.socketToUser
    | none => st.socketToUser
  let rooms := match existing with
    | some e => e.roomIds
    | none => []
  { presenceMap := fun u => if u = userId then some ⟨now, socketId, rooms⟩ else st.presenceMap u,
    socketToUser := fun k => if k = socketId then some userId else s2u k,
    roomUsers := st.roomUsers }

/-- `PresenceService.joinRoom`: add the room to the user's entry (when
one exists) and the user to the room roster (always). -/
def PresenceService.joinRoom (userId roomId : String) (st : PState) : PState :=
  let pm : String → Option PresenceEntry :=
    match st.presenceMap userId with
    | some e =>
      fun u => if u = userId then some { e with roomIds := setAdd e.roomIds roomId }
        else st.presenceMap u
    | none => st.presenceMap
  let roomSet := (st.roomUsers roomId).getD []
  { presenceMap := pm,
    socketToUser := st.socketToUser,
    roomUsers := fun r => if r = roomId then some (setAdd roomSet userId) else st.roomUsers r }

/-- `PresenceService.leaveRoom`: remove the room from the user's entry
(when one exists) and the user from the room roster, deleting the
roster key when the set empties. -/
def PresenceService.leaveRoom (userId roomId : String) (st : PState) : PState :=
  let pm : String → Option PresenceEntry :=
    match st.presenceMap userId with
    | some e =>
      fun u => if u = userId then some { e with roomIds := setDelete e.roomIds roomId }
        else st.presenceMap u
    | none => st.presenceMap
  let ru : String → Option (List String) :=
    match st.roomUsers roomId with
    | some l =>
      let l2 := setDelete l userId
      if l2.length = 0 then fun r => if r = roomId then none else st.roomUsers r
      else fun r => if r = roomId then some l2 else st.roomUsers r
    | none => st.roomUsers
  { presenceMap := pm, socketToUser := st.socketToUser, roomUsers := ru }

/-- The final deletions of `PresenceService.disconnect`:
`presenceMap.delete(userId)` and `socketToUser.delete(socketId)`. -/
def deleteUser (userId socketId : String) (st : PState) : PState :=
  { presenceMap := fun u => if u = userId then none else st.presenceMap u,
    socketToUser := fun k => if k = socketId then none else st.socketToUser k,
    roomUsers := st.roomUsers }

/-- `PresenceService.disconnect`: resolve the socket to a user via the
reverse index (`if (!userId) return null`, where both a missing entry
and the empty string are falsy), leave every room of the entry, then
delete the entry and the reverse mapping. -/
def PresenceService.disconnect (socketId : String) (st : PState) :
    Option (String × List String) × PState :=
  let uid := (st.socketToUser socketId).getD ""
  if uid = "" then (none, st)
  else
    let roomIds := match st.presenceMap uid with
      | some e => e.roomIds
      | none => []
    let st1 := roomIds.foldl (fun acc r => PresenceService.leaveRoom uid r acc) st
    (some (uid, roomIds), deleteUser uid socketId st1)

/-- `PresenceService.ping`: refresh the heartbeat of an existing entry. -/
def PresenceService.ping (now : Int) (userId : String) (st : PState) : PState :=
  match st.presenceMap userId with
  | some e =>
    { st with presenceMap := fun u => if u = userId then some { e with lastPing := now }
        else st.presenceMap u }
  | none => st

/-- `PresenceService.getStatus`: `offline` when no entry exists or the
elapsed time since the last ping exceeds the timeout, else `online`. -/
def PresenceService.getStatus (now : Int) (userId : String) (st : PState) : PresenceStatus :=
  match st.presenceMap userId with
  | none => .offline
  | some e => if onlineTimeoutMs < now - e.lastPing then .offline else .online

/-- `PresenceService.getRoomUsers`: the roster set of a room, empty
when the key is absent. -/
def PresenceService.getRoomUsers (roomId : String) (st : PState) : List String :=
  (st.roomUsers roomId).getD []

/-- A single `PresenceService` mutation, used to state invariants over
arbitrary operation sequences. -/
inductive POp
  | connect (now : Int) (userId socketId : String)
  | disconnect (socketId : String)
  | joinRoom (userId roomId : String)
  | leaveRoom (userId roomId : String)
  | ping (now : Int) (userId : String)
deriving DecidableEq

/-- Apply one presence operation (the return value of `disconnect` is
discarded; only the state matters here). -/
def applyPOp (st : PState) : POp → PState
  | .connect now u s => PresenceService.connect now u s st
  | .disconnect s => (PresenceService.disconnect s st).2
  | .joinRoom u r => PresenceService.joinRoom u r st
  | .leaveRoom u r => PresenceService.leaveRoom u r st
  | .ping now u => PresenceService.ping now u st

/-- Apply a sequence of presence operations in order. -/
def applyPOps (st : PState) (ops : List POp) : PState := ops.foldl applyPOp st

/-- Guard under which the gateway issues an operation: `joinRoom` is
only issued for a user that currently has a presence entry (a connected
user); every other operation is unconditional. -/
def connectedGuard (st : PState) : POp → Bool
  | .joinRoom u _ => (st.presenceMap u).isSome
  | _ => true

/-- A sequence of presence operations each of which satisfies
`connectedGuard` in the state where it runs. -/
def guardedOps (st : PState) : List POp → Bool
  | [] => true
  | op :: rest => connectedGuard st op && guardedOps (applyPOp st op) rest

/-- The roster consistency invariant of the spec: a user is in a room's
roster exactly when the room is in that user's presence-entry room set. -/
def rosterInv (st : PState) : Prop :=
  ∀ u r, u ∈ PresenceService.getRoomUsers r st ↔
    ∃ e, st.presenceMap u = some e ∧ r ∈ e.roomIds

/-- One ack object returned by `ChatGateway.handleMessageSend`; fields
that a given return object lacks are `none`. -/
structure Ack where
  success : Bool
  messageId : Option Nat
  error : Option String
  mutedUntil : Option Int
  isDuplicate : Option Bool
deriving DecidableEq

/-- Events emitted by the gateway handlers: broadcasts to a room,
emits to the requesting client, and external last-seen updates. -/
inductive GEvent
  | systemMuted (roomId : String) (untilTime : Option Int)
  | messageNew (roomId : String) (messageId : Nat)
  | updateLastSeen (roomId : String)
  | messageNewToClient (messageId : Nat)
  | rosterToClient (roomId : String)
  | rosterBroadcast (roomId : String)
deriving DecidableEq

/-- `ChatGateway.handleMessageSend` for an authenticated user:
membership check, `checkAndRecord`, `sendMessage` (with the two store
snapshots of the race model; they coincide in sequential runs), the
`message:new` broadcast built from `getMessage`, and the last-seen
update.  A thrown store error is caught and acknowledged as
`Send failed`. -/
def handleMessageSend (now : Int) (userId : String) (payload : MessageDto)
    (isMember : Bool) (rlMap : RLMap) (sLookup sInsert : Store) :
    Ack × RLMap × Store × List GEvent :=
  if isMember = false then
    (⟨false, none, some "Not a member of this room", none, none⟩, rlMap, sInsert, [])
  else
    let rlStep := checkAndRecord userId payload.roomId now rlMap
    if rlStep.1.allowed = false then
      (⟨false, none, rlStep.1.error, rlStep.1.mutedUntil, none⟩, rlStep.2, sInsert,
        [.systemMuted payload.roomId rlStep.1.mutedUntil])
    else
      match sendMessage now userId payload sLookup sInsert with
      | .error _ => (⟨false, none, some "Send failed", none, none⟩, rlStep.2, sInsert, [])
      | .ok (result, s1, _) =>
        if result.success = false then
          (⟨result.success, result.messageId, result.error, none, result.isDuplicate⟩,
            rlStep.2, s1, [])
        else
          let events : List GEvent :=
            match result.messageId.bind fun mid => getMessage s1 mid with
            | some m => [.messageNew payload.roomId m.id]
            | none => []
          (⟨true, result.messageId, none, none, none⟩, rlStep.2, s1,
            events ++ [.updateLastSeen payload.roomId])

/-- One requested room of a `rooms:sync` payload. -/
structure SyncRoom where
  roomId : String
  lastSeenAt : Int
deriving DecidableEq

/-- One per-room entry of the `rooms:sync` ack. -/
structure RoomSyncResult where
  roomId : String
  synced : Bool
  messageCount : Nat
deriving DecidableEq

/-- The `rooms:sync` ack. -/
structure SyncAck where
  success : Bool
  error : Option String
  results : List RoomSyncResult
deriving DecidableEq

/-- The `for (const room of payload.rooms)` loop of `handleRoomsSync`:
skip non-member rooms, register presence, fetch missed messages through
the store oracle `fetch` (which may throw), emit each missed message and
the roster to the requesting client, and push the per-room result.  A
thrown fetch error aborts the loop, keeping already-performed presence
mutations and emits. -/
def roomsSyncLoop (userId : String) (isMember : String → Bool)
    (fetch : String → Except Unit (List Message)) :
    List SyncRoom → PState → Except Unit (List RoomSyncResult) × PState × List GEvent
  | [], st => (.ok [], st, [])
  | room :: rest, st =>
    if isMember room.roomId = false then roomsSyncLoop userId isMember fetch rest st
    else
      let st1 := PresenceService.joinRoom userId room.roomId st
      match fetch room.roomId with
      | .error e => (.error e, st1, [])
      | .ok msgs =>
        let tail := roomsSyncLoop userId isMember fetch rest st1
        (tail.1.map fun l => ⟨room.roomId, true, msgs.length⟩ :: l, tail.2.1,
          (msgs.map fun m => GEvent.messageNewToClient m.id) ++
            [GEvent.rosterToClient room.roomId] ++ tail.2.2)

/-- `ChatGateway.handleRoomsSync` for an authenticated user: run the
per-room loop inside the handler's try block; on success, broadcast a
refreshed roster to every requested room and ack the per-room results;
a thrown error anywhere is caught and acknowledged as a single
`Sync failed` with no per-room results. -/
def handleRoomsSync (userId : String) (isMember : String → Bool)
    (fetch : String → Except Unit (List Message)) (rooms : List SyncRoom) (st : PState) :
    SyncAck × PState × List GEvent :=
  let loopRes := roomsSyncLoop userId isMember fetch rooms st
  match loopRes.1 with
  | .ok res =>
    (⟨true, none, res⟩, loopRes.2.1,
      loopRes.2.2 ++ rooms.map fun room => GEvent.rosterBroadcast room.roomId)
  | .error _ => (⟨false, some "Sync failed", []⟩, loopRes.2.1, loopRes.2.2)

lemma find?_append_of_none {α : Type} (p : α → Bool) (l1 l2 : List α)
    (h : l1.find? p = none) : (l1 ++ l2).find? p = l2.find? p := by
  induction l1 with
  | nil => simp
  | cons a t ih =>
    rw [List.cons_append]
    simp only [List.find?] at h ⊢
    cases hpa : p a with
    | false => simp only [hpa] at h ⊢; exact ih h
    | true => simp only [hpa] at h; cases h

/-- C1: starting from a store with no dedupe record for
`(roomId, userId, clientMsgId)` and a valid text, two sequential
`sendMessage` calls with the same key create exactly one `Message` row:
the first call inserts the message and its dedupe record and succeeds,
and the second call succeeds with the same message id and
`isDuplicate = true`, leaving the store unchanged. -/
theorem sendMessage_twice_single_insert
    (now1 now2 : Int) (userId : String) (dto : MessageDto) (s : Store)
    (hfresh : findDedupe s dto.roomId userId dto.clientMsgId = none)
    (hne : (jsTrim dto.text).length ≠ 0) (hlen : (jsTrim dto.text).length ≤ 500) :
    ∃ s1 ops1,
      sendMessageSeq now1 userId dto s = .ok (⟨true, some s.nextId, none, none⟩, s1, ops1) ∧
      s1.messages.length = s.messages.length + 1 ∧
      findDedupe s1 dto.roomId userId dto.clientMsgId =
        some ⟨dto.roomId, userId, dto.clientMsgId, s.nextId⟩ ∧
      sendMessageSeq now2 userId dto s1 =
        .ok (⟨true, some s.nextId, none, some true⟩, s1, [.dedupeLookup]) := by
  have hlen2 : ¬ 500 < (jsTrim dto.text).length := by omega
  refine ⟨⟨s.messages ++ [⟨s.nextId, dto.roomId, userId, jsTrim dto.text, now1, dto.replyToId⟩],
    s.dedupes ++ [⟨dto.roomId, userId, dto.clientMsgId, s.nextId⟩], s.nextId + 1⟩,
    [.dedupeLookup, .insertTx], ?_, by simp, ?_, ?_⟩
  · simp only [sendMessageSeq, sendMessage, if_neg hne, if_neg hlen2, hfresh,
      insertMessageWithDedupe]
  · unfold findDedupe at hfresh ⊢
    rw [find?_append_of_none _ _ _ hfresh]
    simp [List.find?]
  · simp only [sendMessageSeq, sendMessage, if_neg hne, if_neg hlen2]
    unfold findDedupe at hfresh ⊢
    rw [find?_append_of_none _ _ _ hfresh]
    simp [List.find?]

/-- Witness for C1 at a concrete input. -/
theorem sendMessage_twice_single_insert_witness :
    findDedupe Store.empty "r" "u" "c" = none ∧
    (jsTrim "hi").length ≠ 0 ∧ (jsTrim "hi").length ≤ 500 ∧
    ∃ s1 ops1,
      sendMessageSeq 0 "u" (⟨"r", "hi", "c", none⟩ : MessageDto) Store.empty =
        .ok (⟨true, some 0, none, none⟩, s1, ops1) ∧
      s1.messages.length = Store.empty.messages.length + 1 ∧
      findDedupe s1 "r" "u" "c" = some ⟨"r", "u", "c", 0⟩ ∧
      sendMessageSeq 1 "u" (⟨"r", "hi", "c", none⟩ : MessageDto) s1 =
        .ok (⟨true, some 0, none, some true⟩, s1, [.dedupeLookup]) :=
  ⟨by decide, by decide, by decide,
    sendMessage_twice_single_insert 0 1 "u" ⟨"r", "hi", "c", none⟩ Store.empty
      (by decide) (by decide) (by decide)⟩

/-- C5: when the trimmed text is empty or longer than 500 characters,
`sendMessage` returns a failure result, leaves the store unchanged, and
performs no store operation at all (empty operation trace: no dedupe
lookup, no insert). -/
theorem sendMessage_validation_failure_no_store
    (now : Int) (userId : String) (dto : MessageDto) (sLookup sInsert : Store)
    (h : (jsTrim dto.text).length = 0 ∨ 500 < (jsTrim dto.text).length) :
    ∃ err, sendMessage now userId dto sLookup sInsert =
      .ok (⟨false, none, some err, none⟩, sInsert, []) := by
  rcases h with h | h
  · exact ⟨"Message cannot be empty", by simp only [sendMessage, if_pos h]⟩
  · refine ⟨"Message too long (max 500 characters)", ?_⟩
    have h0 : ¬ (jsTrim dto.text).length = 0 := by omega
    simp only [sendMessage, if_neg h0, if_pos h]

/-- Witness for C5 at a concrete input (whitespace-only text). -/
theorem sendMessage_validation_failure_no_store_witness :
    ((jsTrim "  ").length = 0 ∨ 500 < (jsTrim "  ").length) ∧
    ∃ err, sendMessage 0 "u" (⟨"r", "  ", "c", none⟩ : MessageDto) Store.empty Store.empty =
      .ok (⟨false, none, some err, none⟩, Store.empty, []) :=
  ⟨by decide,
    sendMessage_validation_failure_no_store 0 "u" ⟨"r", "  ", "c", none⟩
      Store.empty Store.empty (by decide)⟩

/-- C6: for every room, cutoff and limit, `getMessagesSince` returns
only messages of that room with creation time strictly greater than the
cutoff, returns at most 100 of them, and returns them sorted ascending
by creation time. -/
theorem getMessagesSince_spec (roomId : String) (since : Int) (limit : Nat) (s : Store) :
    (∀ m ∈ getMessagesSince roomId since limit s, m.roomId = roomId ∧ since < m.createdAt) ∧
    (getMessagesSince roomId since limit s).length ≤ 100 ∧
    List.Sorted msgLE (getMessagesSince roomId since limit s) := by
  refine ⟨?_, ?_, ?_⟩
  · intro m hm
    have h1 := (List.take_sublist _ _).subset hm
    rw [List.mem_insertionSort] at h1
    have h2 := List.mem_filter.mp h1
    exact of_decide_eq_true h2.2
  · calc (getMessagesSince roomId since limit s).length
        ≤ min limit 100 := by
          unfold getMessagesSince
          simp [List.length_take]
      _ ≤ 100 := Nat.min_le_right _ _
  · exact List.Pairwise.sublist (List.take_sublist _ _)
      (List.sorted_insertionSort msgLE _)

/-- C9 counterexample: a user whose last heartbeat is exactly 30000 ms
old is reported `online` by `getStatus`, although
`now - lastHeartbeat < 30000` does not hold; the code's boundary is
`elapsed > timeout`, not `elapsed < timeout` for online. -/
theorem getStatus_boundary_counterexample :
    PresenceService.getStatus 30000 "u" (PresenceService.connect 0 "u" "s" PState.empty) =
      .online ∧
    ((PresenceService.connect 0 "u" "s" PState.empty).presenceMap "u").map
      PresenceEntry.lastPing = some 0 ∧
    ¬ ((30000 : Int) - 0 < onlineTimeoutMs) := by decide

/-- C9 amended: `getStatus` reports `online` exactly when an entry
exists and `now - lastHeartbeat ≤ 30000` (at most the timeout); in
every other case, in particular when no entry exists or the last ping
is more than 30 seconds old, it reports `offline` (the `away` value is
never returned), and the status is a function of the entry and the
clock alone. -/
theorem getStatus_online_iff (now : Int) (u : String) (st : PState) :
    (PresenceService.getStatus now u st = .online ↔
      ∃ e, st.presenceMap u = some e ∧ now - e.lastPing ≤ onlineTimeoutMs) ∧
    (PresenceService.getStatus now u st = .online ∨
      PresenceService.getStatus now u st = .offline) := by
  unfold PresenceService.getStatus
  cases h : st.presenceMap u with
  | none => simp
  | some e =>
    dsimp only
    refine ⟨⟨?_, ?_⟩, ?_⟩
    · intro hon
      refine ⟨e, rfl, ?_⟩
      by_contra hgt
      rw [if_pos (by omega : onlineTimeoutMs < now - e.lastPing)] at hon
      cases hon
    · rintro ⟨e1, he2, hle⟩
      injection he2 with he
      subst he
      rw [if_neg (by omega : ¬ onlineTimeoutMs < now - e.lastPing)]
    · by_cases hlt : onlineTimeoutMs < now - e.lastPing
      · rw [if_pos hlt]; exact Or.inr rfl
      · rw [if_neg hlt]; exact Or.inl rfl

/-- C10: `disconnect` on a socket id with no connection-to-user mapping
returns `null` and leaves the whole presence state (presence map,
socket index, every room roster) unchanged. -/
theorem disconnect_unmapped_socket_noop (socketId : String) (st : PState)
    (h : (st.socketToUser socketId).getD "" = "") :
    PresenceService.disconnect socketId st = (none, st) := by
  unfold PresenceService.disconnect
  rw [if_pos h]

/-- Witness for C10: the superseded socket of a user who reconnected on
a new socket id has no mapping, and disconnecting it is a no-op. -/
theorem disconnect_unmapped_socket_noop_witness :
    (((PresenceService.connect 1 "u" "B" (PresenceService.connect 0 "u" "A"
      PState.empty)).socketToUser "A").getD "" = "") ∧
    PresenceService.disconnect "A" (PresenceService.connect 1 "u" "B"
      (PresenceService.connect 0 "u" "A" PState.empty)) =
      (none, PresenceService.connect 1 "u" "B" (PresenceService.connect 0 "u" "A"
        PState.empty)) :=
  ⟨by decide,
    disconnect_unmapped_socket_noop "A"
      (PresenceService.connect 1 "u" "B" (PresenceService.connect 0 "u" "A" PState.empty))
      (by decide)⟩

/-- A store holding one message (id 0) in room `r` by user `u` and its
dedupe record for client token `c`, as left behind by a completed send. -/
def replayStore : Store := ⟨[⟨0, "r", "u", "hi", 0, none⟩], [⟨"r", "u", "c", 0⟩], 1⟩

/-- C2 counterexample: for a `message:send` whose key already has a
dedupe record, the gateway ack does not carry `isDuplicate` (the field
returned by the service is dropped), and the gateway does broadcast
`message:new` for the replayed message to the room. -/
theorem handleMessageSend_replay_counterexample :
    (handleMessageSend 5 "u" (⟨"r", "hi", "c", none⟩ : MessageDto) true RLMap.empty
      replayStore replayStore).1 = ⟨true, some 0, none, none, none⟩ ∧
    (handleMessageSend 5 "u" (⟨"r", "hi", "c", none⟩ : MessageDto) true RLMap.empty
      replayStore replayStore).1.isDuplicate ≠ some true ∧
    GEvent.messageNew "r" 0 ∈ (handleMessageSend 5 "u" (⟨"r", "hi", "c", none⟩ : MessageDto)
      true RLMap.empty replayStore replayStore).2.2.2 := by decide

/-- C2 amended: for every `message:send` whose key already has a dedupe
record (with the sender a member, the rate limiter allowing, and the
recorded message resolvable), the gateway ack is `success = true` with
the original message id but without the `isDuplicate` flag, no message
row is inserted (the store is returned unchanged), and the gateway
re-broadcasts `message:new` for the replayed message. -/
theorem handleMessageSend_replay_behavior
    (now : Int) (userId : String) (dto : MessageDto) (rlMap : RLMap) (s : Store)
    (d : DedupeRecord) (m : Message)
    (hne : (jsTrim dto.text).length ≠ 0) (hlen : (jsTrim dto.text).length ≤ 500)
    (hdup : findDedupe s dto.roomId userId dto.clientMsgId = some d)
    (hmsg : getMessage s d.messageId = some m)
    (hallowed : (checkAndRecord userId dto.roomId now rlMap).1.allowed = true) :
    handleMessageSend now userId dto true rlMap s s =
      (⟨true, some d.messageId, none, none, none⟩,
        (checkAndRecord userId dto.roomId now rlMap).2, s,
        [.messageNew dto.roomId m.id, .updateLastSeen dto.roomId]) := by
  have hlen2 : ¬ 500 < (jsTrim dto.text).length := by omega
  have hsend : sendMessage now userId dto s s =
      .ok (⟨true, some d.messageId, none, some true⟩, s, [.dedupeLookup]) := by
    simp only [sendMessage, if_neg hne, if_neg hlen2, hdup]
  unfold handleMessageSend
  rw [if_neg (by decide : ¬ (true = false))]
  dsimp only
  rw [hallowed, if_neg (by decide : ¬ (true = false)), hsend]
  dsimp only
  rw [if_neg (by decide : ¬ (true = false))]
  rw [Option.some_bind, hmsg]
  rfl

/-- Witness for the amended C2 at a concrete input. -/
theorem handleMessageSend_replay_behavior_witness :
    ((jsTrim "hi").length ≠ 0) ∧ ((jsTrim "hi").length ≤ 500) ∧
    findDedupe replayStore "r" "u" "c" = some ⟨"r", "u", "c", 0⟩ ∧
    getMessage replayStore 0 = some ⟨0, "r", "u", "hi", 0, none⟩ ∧
    (checkAndRecord "u" "r" 5 RLMap.empty).1.allowed = true ∧
    handleMessageSend 5 "u" (⟨"r", "hi", "c", none⟩ : MessageDto) true RLMap.empty
        replayStore replayStore =
      (⟨true, some 0, none, none, none⟩, (checkAndRecord "u" "r" 5 RLMap.empty).2,
        replayStore, [.messageNew "r" 0, .updateLastSeen "r"]) :=
  ⟨by decide, by decide, by decide, by decide, by decide,
    handleMessageSend_replay_behavior 5 "u" ⟨"r", "hi", "c", none⟩ RLMap.empty
      replayStore ⟨"r", "u", "c", 0⟩ ⟨0, "r", "u", "hi", 0, none⟩
      (by decide) (by decide) (by decide) (by decide) (by decide)⟩

/-- C4 counterexample: when the dedupe lookup sees no record but the
transactional insert runs against a store where a concurrent send has
already created the record, `sendMessage` surfaces the uniqueness
violation as an error instead of re-reading the record and succeeding,
and the gateway acknowledges the send as failed. -/
theorem sendMessage_unique_violation_counterexample :
    sendMessage 5 "u" (⟨"r", "hi", "c", none⟩ : MessageDto) Store.empty replayStore =
      .error .uniqueViolation ∧
    (handleMessageSend 5 "u" (⟨"r", "hi", "c", none⟩ : MessageDto) true RLMap.empty
      Store.empty replayStore).1 = ⟨false, none, some "Send failed", none, none⟩ :=
  ⟨rfl, by decide⟩

/-- C4 amended: when the atomic insert fails with a uniqueness
violation on the dedupe key (the record appeared between the lookup and
the insert), `sendMessage` propagates the error — it has no handler —
and the gateway's catch converts it into a failure ack with the generic
`Send failed` error, not a success carrying the existing message id. -/
theorem sendMessage_unique_violation_surfaces
    (now : Int) (userId : String) (dto : MessageDto) (rlMap : RLMap) (sLookup sInsert : Store)
    (hne : (jsTrim dto.text).length ≠ 0) (hlen : (jsTrim dto.text).length ≤ 500)
    (hmiss : findDedupe sLookup dto.roomId userId dto.clientMsgId = none)
    (d : DedupeRecord)
    (hhit : findDedupe sInsert dto.roomId userId dto.clientMsgId = some d)
    (hallowed : (checkAndRecord userId dto.roomId now rlMap).1.allowed = true) :
    sendMessage now userId dto sLookup sInsert = .error .uniqueViolation ∧
    (handleMessageSend now userId dto true rlMap sLookup sInsert).1 =
      ⟨false, none, some "Send failed", none, none⟩ := by
  have hlen2 : ¬ 500 < (jsTrim dto.text).length := by omega
  have hsend : sendMessage now userId dto sLookup sInsert = .error .uniqueViolation := by
    simp only [sendMessage, if_neg hne, if_neg hlen2, hmiss, insertMessageWithDedupe, hhit]
  refine ⟨hsend, ?_⟩
  unfold handleMessageSend
  rw [if_neg (by decide : ¬ (true = false))]
  dsimp only
  rw [hallowed, if_neg (by decide : ¬ (true = false)), hsend]

/-- Witness for the amended C4 at a concrete input. -/
theorem sendMessage_unique_violation_surfaces_witness :
    ((jsTrim "hi").length ≠ 0) ∧ ((jsTrim "hi").length ≤ 500) ∧
    findDedupe Store.empty "r" "u" "c" = none ∧
    findDedupe replayStore "r" "u" "c" = some ⟨"r", "u", "c", 0⟩ ∧
    (checkAndRecord "u" "r" 5 RLMap.empty).1.allowed = true ∧
    (sendMessage 5 "u" (⟨"r", "hi", "c", none⟩ : MessageDto) Store.empty replayStore =
        .error .uniqueViolation ∧
      (handleMessageSend 5 "u" (⟨"r", "hi", "c", none⟩ : MessageDto) true RLMap.empty
        Store.empty replayStore).1 = ⟨false, none, some "Send failed", none, none⟩) :=
  ⟨by decide, by decide, by decide, by decide, by decide,
    sendMessage_unique_violation_surfaces 5 "u" ⟨"r", "hi", "c", none⟩ RLMap.empty
      Store.empty replayStore (by decide) (by decide) (by decide) ⟨"r", "u", "c", 0⟩
      (by decide) (by decide)⟩

lemma checkAndRecord_allowed (u r : String) (now : Int) (m : RLMap) (ts : List Int)
    (hm : (m (rlKey u r)).getD ⟨[], none⟩ = ⟨ts, none⟩)
    (hts : ∀ t ∈ ts, now - windowMs < t)
    (hlen : ts.length < maxMessages) :
    checkAndRecord u r now m =
      (⟨true, none, some (maxMessages - (ts.length + 1)), none⟩,
        RLMap.set m (rlKey u r) ⟨ts ++ [now], none⟩) := by
  unfold checkAndRecord
  dsimp only
  rw [hm]
  dsimp only
  unfold recordInWindow
  rw [List.filter_eq_self.mpr (fun a ha => decide_eq_true (hts a ha))]
  rw [if_neg (by omega : ¬ maxMessages ≤ ts.length)]

lemma checkAndRecord_reject (u r : String) (now : Int) (m : RLMap) (ts : List Int)
    (hm : (m (rlKey u r)).getD ⟨[], none⟩ = ⟨ts, none⟩)
    (hts : ∀ t ∈ ts, now - windowMs < t)
    (hlen : maxMessages ≤ ts.length) :
    checkAndRecord u r now m =
      (⟨false, some (now + muteDurationMs), none,
          some "Rate limit exceeded. You are muted for 30 seconds."⟩,
        RLMap.set m (rlKey u r) ⟨ts, some (now + muteDurationMs)⟩) := by
  unfold checkAndRecord
  dsimp only
  rw [hm]
  dsimp only
  unfold recordInWindow
  rw [List.filter_eq_self.mpr (fun a ha => decide_eq_true (hts a ha))]
  rw [if_pos hlen]

lemma checkAndRecord_muted (u r : String) (now : Int) (m : RLMap) (ts : List Int) (mu : Int)
    (hm : (m (rlKey u r)).getD ⟨[], none⟩ = ⟨ts, some mu⟩)
    (hnow : now < mu) :
    checkAndRecord u r now m =
      (⟨false, some mu, none, some "You are muted due to rate limit violation"⟩,
        RLMap.set m (rlKey u r) ⟨ts, some mu⟩) := by
  unfold checkAndRecord
  dsimp only
  rw [hm]
  dsimp only
  rw [if_pos hnow]

lemma checkAndRecord_mute_expired (u r : String) (now : Int) (m : RLMap) (ts : List Int)
    (mu : Int) (hm : (m (rlKey u r)).getD ⟨[], none⟩ = ⟨ts, some mu⟩)
    (hnow : mu ≤ now) :
    checkAndRecord u r now m =
      (⟨true, none, some (maxMessages - 1), none⟩,
        RLMap.set m (rlKey u r) ⟨[now], none⟩) := by
  unfold checkAndRecord
  dsimp only
  rw [hm]
  dsimp only
  rw [if_neg (by omega : ¬ now < mu)]
  unfold recordInWindow
  simp only [List.filter_nil, List.nil_append]
  rw [if_neg (by decide : ¬ maxMessages ≤ ([] : List Int).length)]
  rfl

/-- C3: for every (user, room) pair starting from the empty rate-limit
map, five calls at non-decreasing times inside one 10-second window are
all allowed; a sixth call in the same window is rejected and sets
`mutedUntil = now + 30s`; a further call before `mutedUntil` is
rejected with the same, unextended `mutedUntil` and leaves the entry
unchanged; and the first call at or after `mutedUntil` is allowed,
starting from an empty timestamp window (the new entry records only
that call). -/
theorem checkAndRecord_rate_limit_lifecycle
    (u r : String) (t1 t2 t3 t4 t5 t6 t7 t8 : Int)
    (h12 : t1 ≤ t2) (h23 : t2 ≤ t3) (h34 : t3 ≤ t4) (h45 : t4 ≤ t5) (h56 : t5 ≤ t6)
    (hwin : t6 < t1 + windowMs)
    (_h67 : t6 ≤ t7) (h7 : t7 < t6 + muteDurationMs) (h8 : t6 + muteDurationMs ≤ t8) :
    ∃ m1 m2 m3 m4 m5 m6 m7,
      checkAndRecord u r t1 RLMap.empty = (⟨true, none, some 4, none⟩, m1) ∧
      checkAndRecord u r t2 m1 = (⟨true, none, some 3, none⟩, m2) ∧
      checkAndRecord u r t3 m2 = (⟨true, none, some 2, none⟩, m3) ∧
      checkAndRecord u r t4 m3 = (⟨true, none, some 1, none⟩, m4) ∧
      checkAndRecord u r t5 m4 = (⟨true, none, some 0, none⟩, m5) ∧
      checkAndRecord u r t6 m5 =
        (⟨false, some (t6 + muteDurationMs), none,
          some "Rate limit exceeded. You are muted for 30 seconds."⟩, m6) ∧
      checkAndRecord u r t7 m6 =
        (⟨false, some (t6 + muteDurationMs), none,
          some "You are muted due to rate limit violation"⟩, m7) ∧
      m7 (rlKey u r) = m6 (rlKey u r) ∧
      checkAndRecord u r t8 m7 =
        (⟨true, none, some 4, none⟩, RLMap.set m7 (rlKey u r) ⟨[t8], none⟩) := by
  refine ⟨RLMap.set RLMap.empty (rlKey u r) ⟨[t1], none⟩,
    RLMap.set (RLMap.set RLMap.empty (rlKey u r) ⟨[t1], none⟩) (rlKey u r) ⟨[t1, t2], none⟩,
    RLMap.set (RLMap.set (RLMap.set RLMap.empty (rlKey u r) ⟨[t1], none⟩) (rlKey u r) ⟨[t1, t2], none⟩) (rlKey u r) ⟨[t1, t2, t3], none⟩,
    RLMap.set (RLMap.set (RLMap.set (RLMap.set RLMap.empty (rlKey u r) ⟨[t1], none⟩) (rlKey u r) ⟨[t1, t2], none⟩) (rlKey u r) ⟨[t1, t2, t3], none⟩) (rlKey u r) ⟨[t1, t2, t3, t4], none⟩,
    RLMap.set (RLMap.set (RLMap.set (RLMap.set (RLMap.set RLMap.empty (rlKey u r) ⟨[t1], none⟩) (rlKey u r) ⟨[t1, t2], none⟩) (rlKey u r) ⟨[t1, t2, t3], none⟩) (rlKey u r) ⟨[t1, t2, t3, t4], none⟩) (rlKey u r) ⟨[t1, t2, t3, t4, t5], none⟩,
    RLMap.set (RLMap.set (RLMap.set (RLMap.set (RLMap.set (RLMap.set RLMap.empty (rlKey u r) ⟨[t1], none⟩) (rlKey u r) ⟨[t1, t2], none⟩) (rlKey u r) ⟨[t1, t2, t3], none⟩) (rlKey u r) ⟨[t1, t2, t3, t4], none⟩) (rlKey u r) ⟨[t1, t2, t3, t4, t5], none⟩) (rlKey u r) ⟨[t1, t2, t3, t4, t5], some (t6 + muteDurationMs)⟩,
    RLMap.set (RLMap.set (RLMap.set (RLMap.set (RLMap.set (RLMap.set (RLMap.set RLMap.empty (rlKey u r) ⟨[t1], none⟩) (rlKey u r) ⟨[t1, t2], none⟩) (rlKey u r) ⟨[t1, t2, t3], none⟩) (rlKey u r) ⟨[t1, t2, t3, t4], none⟩) (rlKey u r) ⟨[t1, t2, t3, t4, t5], none⟩) (rlKey u r) ⟨[t1, t2, t3, t4, t5], some (t6 + muteDurationMs)⟩) (rlKey u r) ⟨[t1, t2, t3, t4, t5], some (t6 + muteDurationMs)⟩,
    checkAndRecord_allowed u r t1 RLMap.empty [] rfl (by simp) (by decide),
    ?_, ?_, ?_, ?_, ?_, ?_, ?_, ?_⟩
  · refine checkAndRecord_allowed u r t2 _ [t1] (by simp [RLMap.set]) ?_
      (by simp [maxMessages])
    intro t ht
    simp only [List.mem_cons, List.not_mem_nil, or_false] at ht
    subst ht
    omega
  · refine checkAndRecord_allowed u r t3 _ [t1, t2] (by simp [RLMap.set]) ?_
      (by simp [maxMessages])
    intro t ht
    simp only [List.mem_cons, List.not_mem_nil, or_false] at ht
    rcases ht with rfl | rfl <;> omega
  · refine checkAndRecord_allowed u r t4 _ [t1, t2, t3] (by simp [RLMap.set]) ?_
      (by simp [maxMessages])
    intro t ht
    simp only [List.mem_cons, List.not_mem_nil, or_false] at ht
    rcases ht with rfl | rfl | rfl <;> omega
  · refine checkAndRecord_allowed u r t5 _ [t1, t2, t3, t4] (by simp [RLMap.set]) ?_
      (by simp [maxMessages])
    intro t ht
    simp only [List.mem_cons, List.not_mem_nil, or_false] at ht
    rcases ht with rfl | rfl | rfl | rfl <;> omega
  · refine checkAndRecord_reject u r t6 _ [t1, t2, t3, t4, t5] (by simp [RLMap.set]) ?_
      (by simp [maxMessages])
    intro t ht
    simp only [List.mem_cons, List.not_mem_nil, or_false] at ht
    rcases ht with rfl | rfl | rfl | rfl | rfl <;> omega
  · exact checkAndRecord_muted u r t7 _ [t1, t2, t3, t4, t5] (t6 + muteDurationMs)
      (by simp [RLMap.set]) (by omega)
  · simp [RLMap.set]
  · exact checkAndRecord_mute_expired u r t8 _ [t1, t2, t3, t4, t5] (t6 + muteDurationMs)
      (by simp [RLMap.set]) (by omega)

/-- Witness for C3 at concrete call times. -/
theorem checkAndRecord_rate_limit_lifecycle_witness :
    ((0 : Int) ≤ 0) ∧ ((0 : Int) < 0 + windowMs) ∧ ((0 : Int) ≤ 1) ∧
    ((1 : Int) < 0 + muteDurationMs) ∧ ((0 : Int) + muteDurationMs ≤ 30000) ∧
    ∃ m1 m2 m3 m4 m5 m6 m7,
      checkAndRecord "u" "r" 0 RLMap.empty = (⟨true, none, some 4, none⟩, m1) ∧
      checkAndRecord "u" "r" 0 m1 = (⟨true, none, some 3, none⟩, m2) ∧
      checkAndRecord "u" "r" 0 m2 = (⟨true, none, some 2, none⟩, m3) ∧
      checkAndRecord "u" "r" 0 m3 = (⟨true, none, some 1, none⟩, m4) ∧
      checkAndRecord "u" "r" 0 m4 = (⟨true, none, some 0, none⟩, m5) ∧
      checkAndRecord "u" "r" 0 m5 =
        (⟨false, some ((0 : Int) + muteDurationMs), none,
          some "Rate limit exceeded. You are muted for 30 seconds."⟩, m6) ∧
      checkAndRecord "u" "r" 1 m6 =
        (⟨false, some ((0 : Int) + muteDurationMs), none,
          some "You are muted due to rate limit violation"⟩, m7) ∧
      m7 (rlKey "u" "r") = m6 (rlKey "u" "r") ∧
      checkAndRecord "u" "r" 30000 m7 =
        (⟨true, none, some 4, none⟩, RLMap.set m7 (rlKey "u" "r") ⟨[30000], none⟩) :=
  ⟨by decide, by decide, by decide, by decide, by decide,
    checkAndRecord_rate_limit_lifecycle "u" "r" 0 0 0 0 0 0 1 30000
      (by decide) (by decide) (by decide) (by decide) (by decide) (by decide)
      (by decide) (by decide) (by decide)⟩

/-- Whether an external call returned normally (did not throw). -/
def exceptOk {ε α : Type} : Except ε α → Bool
  | .ok _ => true
  | .error _ => false

/-- The message count a successful fetch reports for a room. -/
def fetchCount (fetch : String → Except Unit (List Message)) (roomId : String) : Nat :=
  match fetch roomId with
  | .ok l => l.length
  | .error _ => 0

lemma roomsSyncLoop_results (userId : String) (isMember : String → Bool)
    (fetch : String → Except Unit (List Message)) :
    ∀ (rooms : List SyncRoom) (st : PState),
    (roomsSyncLoop userId isMember fetch rooms st).1 =
      if (rooms.filter fun room => isMember room.roomId).all
          (fun room => exceptOk (fetch room.roomId)) = true then
        .ok ((rooms.filter fun room => isMember room.roomId).map
          fun room => (⟨room.roomId, true, fetchCount fetch room.roomId⟩ : RoomSyncResult))
      else .error () := by
  intro rooms
  induction rooms with
  | nil => intro st; simp [roomsSyncLoop]
  | cons room rest ih =>
    intro st
    cases hmem : isMember room.roomId with
    | false =>
      rw [roomsSyncLoop]
      rw [if_pos (by rw [hmem] : isMember room.roomId = false)]
      rw [ih]
      simp [List.filter_cons, hmem]
    | true =>
      rw [roomsSyncLoop]
      rw [if_neg (by rw [hmem]; decide : ¬ isMember room.roomId = false)]
      cases hf : fetch room.roomId with
      | error e =>
        cases e
        have hcond : ((room :: rest).filter fun room2 => isMember room2.roomId).all
            (fun room2 => exceptOk (fetch room2.roomId)) = false := by
          simp [List.filter_cons, hmem, hf, exceptOk]
        rw [hcond]
        simp
      | ok msgs =>
        dsimp only
        rw [ih]
        have hfil : (room :: rest).filter (fun room2 => isMember room2.roomId) =
            room :: rest.filter (fun room2 => isMember room2.roomId) :=
          List.filter_cons_of_pos (by simpa using hmem)
        by_cases hrest : ((rest.filter fun room2 => isMember room2.roomId).all
            (fun room2 => exceptOk (fetch room2.roomId))) = true
        · rw [if_pos hrest]
          have hcond : (((room :: rest).filter fun room2 => isMember room2.roomId).all
              (fun room2 => exceptOk (fetch room2.roomId))) = true := by
            rw [hfil, List.all_cons, hrest]
            simp [exceptOk, hf]
          rw [hcond, if_pos rfl, hfil]
          simp [Except.map, fetchCount, hf]
        · rw [if_neg hrest]
          have hcond : ¬ (((room :: rest).filter fun room2 => isMember room2.roomId).all
              (fun room2 => exceptOk (fetch room2.roomId))) = true := by
            rw [hfil, List.all_cons]
            intro hco
            rw [Bool.and_eq_true] at hco
            exact hrest hco.2
          rw [if_neg hcond]
          simp [Except.map]

/-- C7 counterexample: a batch of two member rooms where the first
room's fetch throws is acknowledged as a single whole-batch failure
(`success:false`, no per-room results): the failing room is not
reported with `synced:false`, and the second room is not processed or
reported at all. -/
theorem handleRoomsSync_fetch_error_counterexample :
    (handleRoomsSync "u" (fun _ => true)
      (fun r => if r = "A" then .error () else .ok []) [⟨"A", 0⟩, ⟨"B", 0⟩] PState.empty).1 =
      ⟨false, some "Sync failed", []⟩ := by decide

/-- C7 amended: a non-member room is silently skipped without failing
the batch — when every member room's fetch succeeds, the ack is
`success:true` with exactly the member rooms reported `synced:true` in
request order; but a fetch failure for any member room aborts the whole
batch: the ack is a single `success:false, Sync failed` with no
per-room results, instead of a per-room `synced:false`. -/
theorem handleRoomsSync_batch_characterization
    (userId : String) (isMember : String → Bool)
    (fetch : String → Except Unit (List Message)) (rooms : List SyncRoom) (st : PState) :
    (handleRoomsSync userId isMember fetch rooms st).1 =
      if (rooms.filter fun room => isMember room.roomId).all
          (fun room => exceptOk (fetch room.roomId)) = true then
        ⟨true, none, (rooms.filter fun room => isMember room.roomId).map
          fun room => ⟨room.roomId, true, fetchCount fetch room.roomId⟩⟩
      else ⟨false, some "Sync failed", []⟩ := by
  unfold handleRoomsSync
  dsimp only
  rw [roomsSyncLoop_results]
  by_cases hcond : ((rooms.filter fun room => isMember room.roomId).all
      (fun room => exceptOk (fetch room.roomId))) = true
  · rw [if_pos hcond, if_pos hcond]
  · rw [if_neg hcond, if_neg hcond]

lemma mem_setAdd {l : List String} {x y : String} : y ∈ setAdd l x ↔ y ∈ l ∨ y = x := by
  unfold setAdd
  by_cases h : x ∈ l
  · rw [if_pos h]
    constructor
    · exact Or.inl
    · rintro (hy | rfl)
      · exact hy
      · exact h
  · rw [if_neg h]
    simp

lemma mem_setDelete {l : List String} {x y : String} : y ∈ setDelete l x ↔ y ∈ l ∧ y ≠ x := by
  unfold setDelete
  simp

lemma joinRoom_presenceMap (u r x : String) (st : PState) :
    (PresenceService.joinRoom u r st).presenceMap x =
      match st.presenceMap u with
      | some e => if x = u then some { e with roomIds := setAdd e.roomIds r }
          else st.presenceMap x
      | none => st.presenceMap x := by
  unfold PresenceService.joinRoom
  cases st.presenceMap u <;> rfl

lemma joinRoom_roomUsers (u r r2 : String) (st : PState) :
    (PresenceService.joinRoom u r st).roomUsers r2 =
      if r2 = r then some (setAdd ((st.roomUsers r).getD []) u) else st.roomUsers r2 := by
  unfold PresenceService.joinRoom
  cases st.presenceMap u <;> rfl

lemma mem_joinRoom_roomUsers (u r r2 x : String) (st : PState) :
    x ∈ PresenceService.getRoomUsers r2 (PresenceService.joinRoom u r st) ↔
      (if r2 = r then (x ∈ PresenceService.getRoomUsers r2 st ∨ x = u)
        else x ∈ PresenceService.getRoomUsers r2 st) := by
  unfold PresenceService.getRoomUsers
  rw [joinRoom_roomUsers]
  by_cases hr : r2 = r
  · subst hr
    rw [if_pos rfl, if_pos rfl]
    simp only [Option.getD_some]
    exact mem_setAdd
  · rw [if_neg hr, if_neg hr]

lemma leaveRoom_presenceMap (u r x : String) (st : PState) :
    (PresenceService.leaveRoom u r st).presenceMap x =
      match st.presenceMap u with
      | some e => if x = u then some { e with roomIds := setDelete e.roomIds r }
          else st.presenceMap x
      | none => st.presenceMap x := by
  unfold PresenceService.leaveRoom
  cases st.presenceMap u <;> rfl

lemma mem_leaveRoom_roomUsers (u r r2 x : String) (st : PState) :
    x ∈ PresenceService.getRoomUsers r2 (PresenceService.leaveRoom u r st) ↔
      (if r2 = r then (x ∈ PresenceService.getRoomUsers r2 st ∧ x ≠ u)
        else x ∈ PresenceService.getRoomUsers r2 st) := by
  unfold PresenceService.leaveRoom PresenceService.getRoomUsers
  cases hru : st.roomUsers r with
  | none =>
    dsimp only
    by_cases hr : r2 = r
    · subst hr
      rw [if_pos rfl, hru]
      simp
    · rw [if_neg hr]
  | some l =>
    dsimp only
    by_cases hlen : (setDelete l u).length = 0
    · rw [if_pos hlen]
      by_cases hr : r2 = r
      · subst hr
        rw [if_pos rfl, if_pos rfl, hru]
        simp only [Option.getD_none, Option.getD_some, List.not_mem_nil, false_iff]
        rintro ⟨hxl, hxu⟩
        have hmem : x ∈ setDelete l u := mem_setDelete.mpr ⟨hxl, hxu⟩
        rw [List.length_eq_zero.mp hlen] at hmem
        cases hmem
      · rw [if_neg hr, if_neg hr]
    · rw [if_neg hlen]
      by_cases hr : r2 = r
      · subst hr
        rw [if_pos rfl, if_pos rfl, hru]
        simp only [Option.getD_some]
        exact mem_setDelete
      · rw [if_neg hr, if_neg hr]

lemma connect_presenceMap (now : Int) (u s x : String) (st : PState) :
    (PresenceService.connect now u s st).presenceMap x =
      if x = u then
        some ⟨now, s, (match st.presenceMap u with | some e => e.roomIds | none => [])⟩
      else st.presenceMap x := by
  unfold PresenceService.connect
  cases st.presenceMap u <;> rfl

lemma connect_roomUsers (now : Int) (u s : String) (st : PState) :
    (PresenceService.connect now u s st).roomUsers = st.roomUsers := by
  unfold PresenceService.connect
  cases st.presenceMap u <;> rfl

lemma rosterInv_connect (now : Int) (u s : String) (st : PState) (hinv : rosterInv st) :
    rosterInv (PresenceService.connect now u s st) := by
  intro x r2
  unfold PresenceService.getRoomUsers
  rw [connect_roomUsers, connect_presenceMap]
  have hro := hinv x r2
  unfold PresenceService.getRoomUsers at hro
  by_cases hx : x = u
  · subst hx
    rw [if_pos rfl]
    cases he : st.presenceMap x with
    | none =>
      rw [he] at hro
      simp only [he]
      simp at hro
      simp [hro]
    | some e =>
      rw [he] at hro
      simp only [he]
      rw [hro]
      constructor
      · rintro ⟨e2, he2, hr2⟩
        injection he2 with hee
        subst hee
        exact ⟨_, rfl, hr2⟩
      · rintro ⟨e2, he2, hr2⟩
        injection he2 with hee
        subst hee
        exact ⟨e, rfl, hr2⟩
  · rw [if_neg hx]
    exact hro

lemma rosterInv_ping (now : Int) (u : String) (st : PState) (hinv : rosterInv st) :
    rosterInv (PresenceService.ping now u st) := by
  unfold PresenceService.ping
  cases he : st.presenceMap u with
  | none => exact hinv
  | some e =>
    intro x r2
    have hro := hinv x r2
    unfold PresenceService.getRoomUsers at hro ⊢
    dsimp only
    by_cases hx : x = u
    · subst hx
      rw [if_pos rfl]
      rw [he] at hro
      rw [hro]
      constructor
      · rintro ⟨e2, he2, hr2⟩
        injection he2 with hee
        subst hee
        exact ⟨_, rfl, hr2⟩
      · rintro ⟨e2, he2, hr2⟩
        injection he2 with hee
        subst hee
        exact ⟨e, rfl, hr2⟩
    · rw [if_neg hx]
      exact hro

lemma rosterInv_joinRoom (u r : String) (st : PState) (hinv : rosterInv st)
    (hconn : (st.presenceMap u).isSome = true) :
    rosterInv (PresenceService.joinRoom u r st) := by
  obtain ⟨e, he⟩ := Option.isSome_iff_exists.mp hconn
  intro x r2
  rw [mem_joinRoom_roomUsers, joinRoom_presenceMap, he]
  have hro := hinv x r2
  dsimp only
  by_cases hx : x = u
  · subst hx
    rw [if_pos rfl]
    rw [he] at hro
    have hro2 : x ∈ PresenceService.getRoomUsers r2 st ↔ r2 ∈ e.roomIds := by
      rw [hro]
      simp
    by_cases hr : r2 = r
    · subst hr
      rw [if_pos rfl]
      constructor
      · intro _
        exact ⟨_, rfl, mem_setAdd.mpr (Or.inr rfl)⟩
      · intro _
        exact Or.inr rfl
    · rw [if_neg hr, hro2]
      constructor
      · intro h1
        exact ⟨_, rfl, mem_setAdd.mpr (Or.inl h1)⟩
      · rintro ⟨e2, he2, hr2⟩
        injection he2 with hee
        subst hee
        rcases mem_setAdd.mp hr2 with h2 | h2
        · exact h2
        · exact absurd h2 hr
  · rw [if_neg hx, hro]
    by_cases hr : r2 = r
    · subst hr
      rw [if_pos rfl]
      constructor
      · rintro (h1 | h1)
        · exact h1
        · exact absurd h1 hx
      · exact Or.inl
    · rw [if_neg hr]

lemma rosterInv_leaveRoom (u r : String) (st : PState) (hinv : rosterInv st) :
    rosterInv (PresenceService.leaveRoom u r st) := by
  intro x r2
  rw [mem_leaveRoom_roomUsers, leaveRoom_presenceMap]
  have hro := hinv x r2
  by_cases hx : x = u
  · subst hx
    cases he : st.presenceMap x with
    | none =>
      rw [he] at hro
      simp at hro
      dsimp only
      split_ifs <;> simp [hro]
    | some e =>
      rw [he] at hro
      have hro2 : x ∈ PresenceService.getRoomUsers r2 st ↔ r2 ∈ e.roomIds := by
        rw [hro]
        simp
      dsimp only
      rw [if_pos rfl]
      by_cases hr : r2 = r
      · subst hr
        rw [if_pos rfl]
        constructor
        · rintro ⟨_, hcon⟩
          exact absurd rfl hcon
        · rintro ⟨e2, he2, hr2⟩
          injection he2 with hee
          subst hee
          exact absurd (mem_setDelete.mp hr2).2 (fun hco => hco rfl)
      · rw [if_neg hr, hro2]
        constructor
        · intro h1
          exact ⟨_, rfl, mem_setDelete.mpr ⟨h1, hr⟩⟩
        · rintro ⟨e2, he2, hr2⟩
          injection he2 with hee
          subst hee
          exact (mem_setDelete.mp hr2).1
  · rw [hro]
    cases he : st.presenceMap u with
    | none =>
      dsimp only
      by_cases hr : r2 = r
      · subst hr
        rw [if_pos rfl]
        simp [hx]
      · rw [if_neg hr]
    | some e =>
      dsimp only
      rw [if_neg hx]
      by_cases hr : r2 = r
      · subst hr
        rw [if_pos rfl]
        simp [hx]
      · rw [if_neg hr]

lemma deleteUser_getRoomUsers (userId socketId r2 : String) (st : PState) :
    PresenceService.getRoomUsers r2 (deleteUser userId socketId st) =
      PresenceService.getRoomUsers r2 st := rfl

lemma deleteUser_presenceMap (userId socketId x : String) (st : PState) :
    (deleteUser userId socketId st).presenceMap x =
      if x = userId then none else st.presenceMap x := rfl

lemma fold_leave_presenceMap_ne (u x : String) (hx : x ≠ u) :
    ∀ (L : List String) (st : PState),
      (L.foldl (fun acc r3 => PresenceService.leaveRoom u r3 acc) st).presenceMap x =
        st.presenceMap x := by
  intro L
  induction L with
  | nil => intro st; rfl
  | cons a t ih =>
    intro st
    rw [List.foldl_cons, ih, leaveRoom_presenceMap]
    cases st.presenceMap u with
    | none => rfl
    | some e =>
      dsimp only
      rw [if_neg hx]

lemma fold_leave_roster_ne (u x : String) (hx : x ≠ u) :
    ∀ (L : List String) (st : PState) (r2 : String),
      (x ∈ PresenceService.getRoomUsers r2
        (L.foldl (fun acc r3 => PresenceService.leaveRoom u r3 acc) st)) ↔
        x ∈ PresenceService.getRoomUsers r2 st := by
  intro L
  induction L with
  | nil => intro st r2; exact Iff.rfl
  | cons a t ih =>
    intro st r2
    rw [List.foldl_cons, ih, mem_leaveRoom_roomUsers]
    by_cases hr : r2 = a
    · subst hr
      rw [if_pos rfl]
      simp [hx]
    · rw [if_neg hr]

lemma fold_leave_roster_self (u : String) :
    ∀ (L : List String) (st : PState) (r2 : String),
      (u ∈ PresenceService.getRoomUsers r2
        (L.foldl (fun acc r3 => PresenceService.leaveRoom u r3 acc) st)) ↔
        (u ∈ PresenceService.getRoomUsers r2 st ∧ r2 ∉ L) := by
  intro L
  induction L with
  | nil => intro st r2; simp
  | cons a t ih =>
    intro st r2
    rw [List.foldl_cons, ih, mem_leaveRoom_roomUsers]
    by_cases hr : r2 = a
    · subst hr
      rw [if_pos rfl]
      simp
    · rw [if_neg hr]
      simp [hr]

lemma rosterInv_disconnect (s : String) (st : PState) (hinv : rosterInv st) :
    rosterInv (PresenceService.disconnect s st).2 := by
  unfold PresenceService.disconnect
  by_cases hu : (st.socketToUser s).getD "" = ""
  · rw [if_pos hu]
    exact hinv
  · rw [if_neg hu]
    dsimp only
    intro x r2
    rw [deleteUser_getRoomUsers, deleteUser_presenceMap]
    cases he : st.presenceMap ((st.socketToUser s).getD "") with
    | some e =>
      dsimp only
      by_cases hx : x = (st.socketToUser s).getD ""
      · rw [if_pos hx, hx]
        constructor
        · intro hmem
          obtain ⟨hin, hnotin⟩ := (fold_leave_roster_self _ e.roomIds st r2).mp hmem
          obtain ⟨e2, he2, hr2⟩ := (hinv _ r2).mp hin
          rw [he] at he2
          injection he2 with hee
          subst hee
          exact absurd hr2 hnotin
        · rintro ⟨e2, he2, _⟩
          cases he2
      · rw [if_neg hx]
        rw [fold_leave_roster_ne _ x hx e.roomIds st r2,
          fold_leave_presenceMap_ne _ x hx e.roomIds st]
        exact hinv x r2
    | none =>
      dsimp only
      rw [List.foldl_nil]
      by_cases hx : x = (st.socketToUser s).getD ""
      · rw [if_pos hx, hx]
        constructor
        · intro hmem
          obtain ⟨e2, he2, _⟩ := (hinv _ r2).mp hmem
          rw [he] at he2
          cases he2
        · rintro ⟨e2, he2, _⟩
          cases he2
      · rw [if_neg hx]
        exact hinv x r2

lemma rosterInv_applyPOp (st : PState) (op : POp) (hinv : rosterInv st)
    (hg : connectedGuard st op = true) : rosterInv (applyPOp st op) := by
  cases op with
  | connect now u s => exact rosterInv_connect now u s st hinv
  | disconnect s => exact rosterInv_disconnect s st hinv
  | joinRoom u r => exact rosterInv_joinRoom u r st hinv (by simpa [connectedGuard] using hg)
  | leaveRoom u r => exact rosterInv_leaveRoom u r st hinv
  | ping now u => exact rosterInv_ping now u st hinv

/-- C8 counterexample: from the empty presence state, the single
operation `joinRoom u r` (issued for a user with no presence entry,
which the code permits) puts the user in the room roster while the user
has no presence entry at all, so the roster consistency invariant does
not hold after every operation sequence. -/
theorem rosterInv_joinRoom_counterexample :
    ¬ rosterInv (applyPOps PState.empty [POp.joinRoom "u" "r"]) := by
  intro h
  obtain ⟨e, he, _⟩ := (h "u" "r").mp (by decide)
  have hn : (applyPOps PState.empty [POp.joinRoom "u" "r"]).presenceMap "u" = none := rfl
  rw [hn] at he
  cases he

/-- C8 amended: the roster consistency invariant — a user is in
`RoomRoster[room]` iff the room is in that user's presence-entry room
set — holds after every sequence of presence operations from the empty
state in which each `joinRoom` is issued for a currently-connected user
(one with a presence entry), which is how the gateway issues it;
connect, leaveRoom, ping and disconnect preserve it unconditionally. -/
theorem rosterInv_guarded_from_empty (ops : List POp)
    (hg : guardedOps PState.empty ops = true) :
    rosterInv (applyPOps PState.empty ops) := by
  have hbase : rosterInv PState.empty := by
    intro u r
    constructor
    · intro hmem
      cases hmem
    · rintro ⟨e, he, _⟩
      cases he
  have hgen : ∀ (l : List POp) (st : PState), rosterInv st → guardedOps st l = true →
      rosterInv (applyPOps st l) := by
    intro l
    induction l with
    | nil => intro st h _; exact h
    | cons op t ih =>
      intro st h hg2
      simp only [guardedOps, Bool.and_eq_true] at hg2
      have hstep := rosterInv_applyPOp st op h hg2.1
      have htail := ih (applyPOp st op) hstep hg2.2
      rw [applyPOps, List.foldl_cons]
      exact htail
  exact hgen ops PState.empty hbase hg

/-- Witness for the amended C8: a connect followed by a join of the
connected user satisfies the guard, and the invariant holds. -/
theorem rosterInv_guarded_from_empty_witness :
    guardedOps PState.empty [POp.connect 0 "u" "s", POp.joinRoom "u" "r"] = true ∧
    rosterInv (applyPOps PState.empty [POp.connect 0 "u" "s", POp.joinRoom "u" "r"]) :=
  ⟨by decide, rosterInv_guarded_from_empty [POp.connect 0 "u" "s", POp.joinRoom "u" "r"]
    (by decide)⟩

end ChatKet
